import Mathlib

/-!
Verification development for the Flatcar Ignition provisioning engine.

The Go sources are embedded shallowly: pure functions become Lean functions,
effectful code is modelled by explicit outcome values or by parameters
standing for the external calls (process execution, probing, JSON decoding).
Strings are Lean `String`s (sequences of characters); the inputs relevant
here are ASCII, where Go's byte indexing and Lean's character indexing agree.
-/

/-! ## Generic string and map helpers

These model the Go standard-library pieces the sources use: `strings.ToLower`,
`strings.Join`, `path.Clean` / `path.Join`, and Go `map[string]string`
lookup/insert (a missing key reads as the zero value `""`).
-/

/-- Models Go `strings.ToLower` on ASCII input (character-wise lowering). -/
def strToLower (s : String) : String :=
  String.mk (s.data.map Char.toLower)

/-- Models Go `strings.Join(elems, "\n")` as used for combined error output. -/
def joinWithNewline (elems : List String) : String :=
  String.mk (List.intercalate ['\n'] (elems.map String.data))

/-- Splits a character list on a separator character; auxiliary accumulator form. -/
def splitOnCharAux (c : Char) : List Char → List Char → List (List Char)
  | [], acc => [acc.reverse]
  | x :: xs, acc =>
    if x = c then acc.reverse :: splitOnCharAux c xs []
    else splitOnCharAux c xs (x :: acc)

/-- Component processing of Go `path.Clean`: drop empty and `.` components and
resolve `..` against a stack of kept components. -/
def cleanComponents (rooted : Bool) : List (List Char) → List (List Char) → List (List Char)
  | stack, [] => stack
  | stack, comp :: rest =>
    if comp = [] ∨ comp = ['.'] then cleanComponents rooted stack rest
    else if comp = ['.', '.'] then
      if rooted then cleanComponents rooted stack.dropLast rest
      else if stack ≠ [] ∧ stack.getLast? ≠ some ['.', '.'] then
        cleanComponents rooted stack.dropLast rest
      else cleanComponents rooted (stack ++ [comp]) rest
    else cleanComponents rooted (stack ++ [comp]) rest

/-- Models Go `path.Clean`: lexical simplification of a slash-separated path. -/
def pathClean (p : String) : String :=
  if p = "" then "."
  else
    let cs := p.data
    let rooted := cs.head? = some '/'
    let stack := cleanComponents (decide rooted) [] (splitOnCharAux '/' cs [])
    if rooted then String.mk ('/' :: List.intercalate ['/'] stack)
    else if stack = [] then "." else String.mk (List.intercalate ['/'] stack)

/-- Models Go `path.Join`: empty elements are dropped, the rest are joined with
`/` and the result is cleaned; all-empty input gives `""`. -/
def pathJoin (elems : List String) : String :=
  let ne := elems.filter (fun e => e ≠ "")
  if ne = [] then ""
  else pathClean (String.mk (List.intercalate ['/'] (ne.map String.data)))

/-- Association-list model of Go `map[string]string`. -/
abbrev SMap := List (String × String)

/-- Lookup returning `none` for a missing key (Go's `v, ok := m[k]` form):
the first binding wins. -/
def mapFind : SMap → String → Option String
  | [], _ => none
  | p :: rest, k => if p.1 = k then some p.2 else mapFind rest k

/-- Lookup returning the zero value `""` for a missing key (Go's `m[k]` form). -/
def mapGet (m : SMap) (k : String) : String :=
  (mapFind m k).getD ""

/-- Insertion overwriting any previous binding (Go's `m[k] = v`): the new
binding shadows older ones, which no lookup can observe. -/
def mapInsert (m : SMap) (k v : String) : SMap :=
  (k, v) :: m

/-- Key-membership test (Go's `_, ok := m[k]`). -/
def mapContains (m : SMap) (k : String) : Bool :=
  (mapFind m k).isSome

/-! ## Disks stage: `internal/exec/stages/disks/filesystems.go` -/

namespace DisksStage

/-- Legacy `create` block of an internal-config filesystem (`types.Create`):
the fields read by the disks stage. -/
structure Create where
  force : Bool
  options : List String
deriving DecidableEq

/-- Internal-config `types.Mount`: the fields read by `createFilesystem`. -/
structure Mount where
  device : String
  format : String
  label : Option String
  uuid : Option String
  wipeFilesystem : Bool
  create : Option Create
  options : List String
  cleanExcept : List String
deriving DecidableEq

/-- Internal-config `types.Filesystem`: the stage only reads the `Mount` field. -/
structure Filesystem where
  mount : Option Mount
deriving DecidableEq

/-- Probe result `filesystemInfo` from `readFilesystemInfo`. -/
structure FsInfo where
  format : String
  uuid : String
  label : String
deriving DecidableEq

/-- The source's `canonicalizeFilesystemUUID`: lowercase, and for `vfat` strip a
dash at index 4 when present. -/
def canonicalizeFilesystemUUID (format uuid : String) : String :=
  let uuid := strToLower uuid
  if format = "vfat" then
    if uuid.length ≥ 5 ∧ uuid.data[4]? = some '-' then
      String.mk (uuid.data.take 4 ++ uuid.data.drop 5)
    else uuid
  else uuid

/-- Modelled from the spec: the `distro` mkfs command table (§4.3) — the
`internal/distro` package is not among the sources. -/
def btrfsMkfsCmd : String := "mkfs.btrfs"

/-- Modelled from the spec: see `btrfsMkfsCmd`. -/
def ext4MkfsCmd : String := "mkfs.ext4"

/-- Modelled from the spec: see `btrfsMkfsCmd`. -/
def xfsMkfsCmd : String := "mkfs.xfs"

/-- Modelled from the spec: see `btrfsMkfsCmd`. -/
def swapMkfsCmd : String := "mkswap"

/-- Modelled from the spec: see `btrfsMkfsCmd`. -/
def vfatMkfsCmd : String := "mkfs.fat"

/-- Modelled from the spec: `util.DeviceAlias` places an alias for a device
under `/run/ignition/dev_aliases/` (§6, device-alias layout); the code of
`internal/exec/util` is not among the sources, and the exact name encoding is
left as the identity here. -/
def deviceAlias (dev : String) : String :=
  "/run/ignition/dev_aliases/" ++ dev

/-- Outcome of one `createFilesystem` call, with the external effects made
explicit: skip mkfs (optionally running clean-except), reject the existing
filesystem, invoke a concrete mkfs command line, or reject the format. -/
inductive FsPlan
  | noop
  | cleanExceptRun
  | badFilesystem
  | runMkfs (cmd : String) (args : List String)
  | unsupportedFormat (format : String)
deriving DecidableEq

/-- The mkfs argv construction of `createFilesystem` (the `switch fs.Format`
block): option source, per-format flags, and the device alias last. -/
def mkfsPlan (fs : Mount) : FsPlan :=
  let args : List String :=
    match fs.create with
    | none => fs.options
    | some create => create.options
  match fs.format with
  | "btrfs" =>
    let args := args ++ ["--force"]
    let args := match fs.uuid with
      | some u => args ++ ["-U", canonicalizeFilesystemUUID fs.format u]
      | none => args
    let args := match fs.label with
      | some l => args ++ ["-L", l]
      | none => args
    .runMkfs btrfsMkfsCmd (args ++ [deviceAlias fs.device])
  | "ext4" =>
    let args := args ++ ["-F"]
    let args := match fs.uuid with
      | some u => args ++ ["-U", canonicalizeFilesystemUUID fs.format u]
      | none => args
    let args := match fs.label with
      | some l => args ++ ["-L", l]
      | none => args
    .runMkfs ext4MkfsCmd (args ++ [deviceAlias fs.device])
  | "xfs" =>
    let args := args ++ ["-f"]
    let args := match fs.uuid with
      | some u => args ++ ["-m", "uuid=" ++ canonicalizeFilesystemUUID fs.format u]
      | none => args
    let args := match fs.label with
      | some l => args ++ ["-L", l]
      | none => args
    .runMkfs xfsMkfsCmd (args ++ [deviceAlias fs.device])
  | "swap" =>
    let args := args ++ ["-f"]
    let args := match fs.uuid with
      | some u => args ++ ["-U", canonicalizeFilesystemUUID fs.format u]
      | none => args
    let args := match fs.label with
      | some l => args ++ ["-L", l]
      | none => args
    .runMkfs swapMkfsCmd (args ++ [deviceAlias fs.device])
  | "vfat" =>
    let args := match fs.uuid with
      | some u => args ++ ["-i", canonicalizeFilesystemUUID fs.format u]
      | none => args
    let args := match fs.label with
      | some l => args ++ ["-n", l]
      | none => args
    .runMkfs vfatMkfsCmd (args ++ [deviceAlias fs.device])
  | other => .unsupportedFormat other

/-- Decision structure of `createFilesystem` given the probe result `info`
(the probe itself and the mkfs process are external; a probe failure returns
before this logic runs). Mirrors the source branch for legacy `Create`
semantics, the idempotence check with the `"OEM"` label exception, and the
`ErrBadFilesystem` rejection. -/
def createFilesystemPlan (fs : Mount) (info : FsInfo) : FsPlan :=
  match fs.create with
  | some create =>
    if ¬create.force ∧ info.format ≠ "" then .badFilesystem
    else mkfsPlan fs
  | none =>
    if ¬fs.wipeFilesystem then
      if (info.format = fs.format ∨ info.label = "OEM")
          ∧ (fs.label = none ∨ fs.label = some info.label)
          ∧ (fs.uuid = none ∨ canonicalizeFilesystemUUID info.format info.uuid
              = canonicalizeFilesystemUUID fs.format (fs.uuid.getD "")) then
        if fs.cleanExcept.length > 0 then .cleanExceptRun else .noop
      else if info.format ≠ "" then .badFilesystem
      else mkfsPlan fs
    else mkfsPlan fs

/-- Internal-config `types.Storage` as read by the disks stage. -/
structure Storage where
  disks : List String
  raid : List String
  filesystems : List Filesystem
deriving DecidableEq

/-- Internal-config `types.Config` as read by the disks stage. -/
structure Config where
  storage : Storage
deriving DecidableEq

/-- The filesystem entries `createFilesystems` works on: the `Mount` blocks of
the config's filesystems (`fss` in the source). -/
def fsEntries (config : Config) : List Mount :=
  config.storage.filesystems.filterMap (fun f => f.mount)

/-- Result of `createFilesystems`. External behaviour is parameterized:
`waitErr` is the outcome of `waitOnDevicesAndCreateAliases`, `arrival` the
worker results in the order the collector receives them (the worker pool is
concurrent, so this is any permutation of the per-entry results). Failures
are accumulated and joined with newlines. -/
def createFilesystemsResult (waitErr : Option String)
    (arrival : List (Option String)) (config : Config) : Option String :=
  let fss := fsEntries config
  if fss = [] then none
  else
    match waitErr with
    | some e => some e
    | none =>
      let errs := arrival.filterMap id
      if errs = [] then none
      else some (joinWithNewline errs)

/-- The `Run` method of the disks stage (`stage.Run`): the no-op fast path,
then partitions → raid → filesystems in order. The three sub-steps are
parameterized as functions from the config to a trace of emitted external
actions (of an arbitrary type `α`) plus an optional error; `Run` wraps their
errors in the source's message formats. -/
def stageRun {α : Type} (parts raids fss : Config → List α × Option String)
    (config : Config) : List α × Option String :=
  if config.storage.disks.length = 0 ∧ config.storage.raid.length = 0
      ∧ config.storage.filesystems.length = 1 then
    ([], none)
  else
    match parts config with
    | (t1, some e) => (t1, some ("create partitions failed: " ++ e))
    | (t1, none) =>
      match raids config with
      | (t2, some e) => (t1 ++ t2, some ("failed to create raids: " ++ e))
      | (t2, none) =>
        match fss config with
        | (t3, some e) => (t1 ++ t2 ++ t3, some ("failed to create filesystems: " ++ e))
        | (t3, none) => (t1 ++ t2 ++ t3, none)

end DisksStage

/-! ## v2.4 → v3.1 translation: `ign-converter/translate/v24tov31/v24tov31.go` -/

namespace Conv

/-- Modelled from the spec: `util.StrP` from the ign-converter `util` package
(not among the sources). Per §9 (optional-vs-absent) the non-strict pointer
helpers map the zero value to "absent": an empty string becomes a nil
pointer. -/
def strP (s : String) : Option String :=
  if s = "" then none else some s

/-- Modelled from the spec: `util.StrPStrict` — the strict variant keeps even
the empty string present (see `strP`). -/
def strPStrict (s : String) : Option String :=
  some s

/-- Modelled from the spec: `util.BoolP` — `false` (the zero value) becomes a
nil pointer, `true` a pointer to `true` (see `strP` and §4.1.1 item 9). -/
def boolP (b : Bool) : Option Bool :=
  if b then some true else none

/-- Modelled from the spec: `util.BoolPStrict` — always a present pointer, so
an explicit `false` stays distinct from absent (§4.1.1 item 9). -/
def boolPStrict (b : Bool) : Option Bool :=
  some b

/-- Decides whether `l` names a proper path ancestor of `p`: some prefix of
`p`'s `/`-components equals `l`, and `p` itself is not `l`. -/
def isPathAncestor (l p : String) : Bool :=
  if l = "" then false
  else if l = p then false
  else if l = "/" then p.data.head? = some '/'
  else List.isPrefixOf (l.data ++ ['/']) p.data

/-- Modelled from the spec: `util.CheckPathUsesLink` from the ign-converter
`util` package (not among the sources). Per §4.1.1 item 5 it reports a link
whose path equals a prefix of the entry's path; per the §9 open question,
equality itself is not an ancestor relation (a link is not "under" itself).
Returns the offending link path or `""`. -/
def CheckPathUsesLink (links : List String) (p : String) : String :=
  match links with
  | [] => ""
  | l :: rest => if isPathAncestor l p then l else CheckPathUsesLink rest p

/-- Modelled from the spec: `util.FSGeneration` from the ign-converter `util`
package (not among the sources). Per §4.1.1, the caller-supplied `fsMap` must
name every legacy filesystem (with `root` bound to `/` by the caller);
generation fails for a filesystem the map does not know. -/
def FSGeneration (name : String) (fsMap : SMap) : Except String String :=
  if mapContains fsMap name then .ok name else .error name

/-- Legacy `types.Create` of a v2.4 mount. -/
structure OldCreate where
  force : Bool
  options : List String
deriving DecidableEq

/-- Legacy `types.Mount` of a v2.4 filesystem. -/
structure OldMount where
  device : String
  format : String
  wipeFilesystem : Bool
  label : Option String
  uuid : Option String
  options : List String
  create : Option OldCreate
deriving DecidableEq

/-- Go zero value `old.Mount{}` substituted for a nil mount by the translator. -/
def OldMount.empty : OldMount :=
  { device := "", format := "", wipeFilesystem := false, label := none,
    uuid := none, options := [], create := none }

/-- Legacy `types.Filesystem` (v2.4): a name and an optional mount block. -/
structure OldFilesystem where
  name : String
  mount : Option OldMount
deriving DecidableEq

/-- Legacy node user reference. -/
structure OldNodeUser where
  id : Option Int
  name : String
deriving DecidableEq

/-- Go zero value `old.NodeUser{}`. -/
def OldNodeUser.empty : OldNodeUser := { id := none, name := "" }

/-- Legacy node group reference. -/
structure OldNodeGroup where
  id : Option Int
  name : String
deriving DecidableEq

/-- Go zero value `old.NodeGroup{}`. -/
def OldNodeGroup.empty : OldNodeGroup := { id := none, name := "" }

/-- Legacy `types.Node` shared by files, directories and links: a filesystem
name, a filesystem-relative path, ownership, and a tri-state overwrite. -/
structure OldNode where
  filesystem : String
  path : String
  user : Option OldNodeUser
  group : Option OldNodeGroup
  overwrite : Option Bool
deriving DecidableEq

/-- Legacy file contents (`types.FileContents`): compression, source,
verification hash and HTTP headers, all value fields except the hash. -/
structure OldContents where
  compression : String
  source : String
  verification : Option String
  httpHeaders : List (String × String)
deriving DecidableEq

/-- Legacy `types.File`: node, mode, contents and the boolean append flag. -/
structure OldFile where
  node : OldNode
  mode : Option Int
  contents : OldContents
  append : Bool
deriving DecidableEq

/-- Legacy `types.Directory`. -/
structure OldDirectory where
  node : OldNode
  mode : Option Int
deriving DecidableEq

/-- Legacy `types.Link`. -/
structure OldLink where
  node : OldNode
  hard : Bool
  target : String
deriving DecidableEq

/-- Legacy systemd dropin. -/
structure OldDropin where
  name : String
  contents : String
deriving DecidableEq

/-- Legacy `types.Unit`: the deprecated boolean `enable` next to the tri-state
`enabled`. -/
structure OldUnit where
  name : String
  enable : Bool
  enabled : Option Bool
  mask : Bool
  contents : String
  dropins : List OldDropin
deriving DecidableEq

/-- Legacy `types.Storage` (the regions the translator and checker read). -/
structure OldStorage where
  filesystems : List OldFilesystem
  files : List OldFile
  directories : List OldDirectory
  links : List OldLink
deriving DecidableEq

/-- Legacy systemd section. -/
structure OldSystemd where
  units : List OldUnit
deriving DecidableEq

/-- Legacy networkd section (only its unit count is consulted; units are kept
as their names). -/
structure OldNetworkd where
  units : List String
deriving DecidableEq

/-- Legacy v2.4 config: the sections `Check2_4` and the storage/systemd
translators read. -/
structure OldConfig where
  storage : OldStorage
  systemd : OldSystemd
  networkd : OldNetworkd
deriving DecidableEq

/-- v3.1 dropin. -/
structure Dropin31 where
  name : String
  contents : Option String
deriving DecidableEq

/-- v3.1 systemd unit. -/
structure Unit31 where
  name : String
  enabled : Option Bool
  mask : Option Bool
  contents : Option String
  dropins : List Dropin31
deriving DecidableEq

/-- v3.1 filesystem. -/
structure Filesystem31 where
  device : String
  format : Option String
  wipeFilesystem : Option Bool
  label : Option String
  uuid : Option String
  options : List String
  path : Option String
deriving DecidableEq

/-- v3.1 node user/group reference. -/
structure NodeOwner31 where
  id : Option Int
  name : Option String
deriving DecidableEq

/-- v3.1 node. -/
structure Node31 where
  path : String
  user : NodeOwner31
  group : NodeOwner31
  overwrite : Option Bool
deriving DecidableEq

/-- v3.1 HTTP header (value becomes a pointer). -/
structure Header31 where
  name : String
  value : Option String
deriving DecidableEq

/-- v3.1 `types.Resource`. -/
structure Resource31 where
  compression : Option String
  source : Option String
  verification : Option String
  httpHeaders : List Header31
deriving DecidableEq

/-- Go zero value `types.Resource{}` (the `Contents` of a pure-append file). -/
def Resource31.empty : Resource31 :=
  { compression := none, source := none, verification := none, httpHeaders := [] }

/-- v3.1 `types.File`: `Contents` is a value (zero value when unset), `Append`
a list. -/
structure File31 where
  node : Node31
  mode : Option Int
  contents : Resource31
  append : List Resource31
deriving DecidableEq

/-- Translation failures raised by `Check2_4` (the dedicated error kinds of the
ign-converter `util` package, whose field names appear at the construction
sites in the source, plus the inline `fmt.Errorf` cases). `nilMountAccess`
marks the Go nil-pointer dereference `fs.Mount.Create` on a filesystem whose
mount block is absent. -/
inductive CheckError
  | invalidReport
  | usesNetworkd
  | fsGeneration (name : String)
  | nilMountAccess (name : String)
  | mountCreateNotForced
  | duplicateInode (old new : String)
  | usesOwnLink (linkPath name : String)
  | duplicateUnit (name : String)
  | duplicateDropin (unit name : String)
deriving DecidableEq

/-- The rewritten absolute path of a legacy entry:
`path.Join("/", fsMap[entry.Filesystem], entry.Path)`. -/
def entryPath (fsMap : SMap) (filesystem p : String) : String :=
  pathJoin ["/", mapGet fsMap filesystem, p]

/-- The absolute paths of all links the config writes (the `links` slice built
at the top of the duplicate/link checks). -/
def linkPathList (fsMap : SMap) (links : List OldLink) : List String :=
  links.map (fun l => entryPath fsMap l.node.filesystem l.node.path)

/-- Rewritten paths of the config's files. -/
def filePathList (fsMap : SMap) (files : List OldFile) : List String :=
  files.map (fun f => entryPath fsMap f.node.filesystem f.node.path)

/-- Rewritten paths of the config's directories. -/
def dirPathList (fsMap : SMap) (dirs : List OldDirectory) : List String :=
  dirs.map (fun d => entryPath fsMap d.node.filesystem d.node.path)

/-- The filesystem loop of `Check2_4`: run `FSGeneration` for every legacy
filesystem and require `force` on any legacy `mount.create` block. -/
def checkFilesystemsLoop (fsMap : SMap) : List OldFilesystem → Option CheckError
  | [] => none
  | fs :: rest =>
    match FSGeneration fs.name fsMap with
    | .error n => some (.fsGeneration n)
    | .ok _ =>
      match fs.mount with
      | none => some (.nilMountAccess fs.name)
      | some mnt =>
        match mnt.create with
        | some create =>
          if ¬create.force then some .mountCreateNotForced
          else checkFilesystemsLoop fsMap rest
        | none => checkFilesystemsLoop fsMap rest

/-- The file/directory loops of `Check2_4` over precomputed rewritten paths:
reject a duplicate against `entryMap` (old description first, new second),
reject a path using one of the written links, then record the entry. `kind`
is the pretty-printing prefix (`"File: "` or `"Directory: "`). -/
def checkEntriesLoop (links : List String) (kind : String) :
    SMap → List String → Except CheckError SMap
  | entryMap, [] => .ok entryMap
  | entryMap, pathString :: rest =>
    let name := kind ++ pathString
    match mapFind entryMap pathString with
    | some duplicate => .error (.duplicateInode duplicate name)
    | none =>
      let l := CheckPathUsesLink links pathString
      if l ≠ "" then .error (.usesOwnLink l name)
      else checkEntriesLoop links kind (mapInsert entryMap pathString name) rest

/-- The link loop of `Check2_4`: as `checkEntriesLoop` but the source records
the entry before the link check (observably equivalent; kept as written). -/
def checkLinksLoop (links : List String) :
    SMap → List String → Except CheckError SMap
  | entryMap, [] => .ok entryMap
  | entryMap, pathString :: rest =>
    let name := "Link: " ++ pathString
    match mapFind entryMap pathString with
    | some duplicate => .error (.duplicateInode duplicate name)
    | none =>
      let entryMap := mapInsert entryMap pathString name
      let l := CheckPathUsesLink links pathString
      if l ≠ "" then .error (.usesOwnLink l name)
      else checkLinksLoop links entryMap rest

/-- The dropin loop inside the unit loop of `Check2_4`. -/
def checkDropinsLoop (unitName : String) (dropinMap : List String) :
    List OldDropin → Option CheckError
  | [] => none
  | d :: rest =>
    if dropinMap.contains d.name then some (.duplicateDropin unitName d.name)
    else checkDropinsLoop unitName (d.name :: dropinMap) rest

/-- The systemd unit loop of `Check2_4`: duplicate unit names, then duplicate
dropin names within each unit. -/
def checkUnitsLoop (unitMap : List String) : List OldUnit → Option CheckError
  | [] => none
  | u :: rest =>
    if unitMap.contains u.name then some (.duplicateUnit u.name)
    else
      match checkDropinsLoop u.name [] u.dropins with
      | some e => some e
      | none => checkUnitsLoop (u.name :: unitMap) rest

/-- The inode (file/directory/link) phase of `Check2_4` over the
root-augmented map: files, then directories, then links, each loop returning
the first error it hits. -/
def check2_4Entries (fm : SMap) (cfg : OldConfig) : Except CheckError SMap :=
  let links := linkPathList fm cfg.storage.links
  match checkEntriesLoop links "File: " [] (filePathList fm cfg.storage.files) with
  | .error e => .error e
  | .ok entryMap =>
    match checkEntriesLoop links "Directory: " entryMap
        (dirPathList fm cfg.storage.directories) with
    | .error e => .error e
    | .ok entryMap =>
      checkLinksLoop links entryMap (linkPathList fm cfg.storage.links)

/-- The source's `Check2_4`: legacy validation (its report outcome supplied by
the `badReport` parameter, since the reflection-driven validator is external),
the networkd rejection, the filesystem checks over `fsMap` with `root ↦ /`
forced, the duplicate-inode and uses-own-link checks, and the unit checks.
`none` means the config is translatable. -/
def Check2_4 (badReport : OldConfig → Bool) (cfg : OldConfig) (fsMap : SMap) :
    Option CheckError :=
  if badReport cfg then some .invalidReport
  else if cfg.networkd.units ≠ [] then some .usesNetworkd
  else
    let fm := mapInsert fsMap "root" "/"
    match checkFilesystemsLoop fm cfg.storage.filesystems with
    | some e => some e
    | none =>
      match check2_4Entries fm cfg with
      | .error e => some e
      | .ok _ => checkUnitsLoop [] cfg.systemd.units

/-- All rewritten inode paths of a legacy config in check order: files, then
directories, then links. -/
def rewrittenPaths (fm : SMap) (cfg : OldConfig) : List String :=
  filePathList fm cfg.storage.files
    ++ dirPathList fm cfg.storage.directories
    ++ linkPathList fm cfg.storage.links

/-- The source's `translateDropins` on one dropin. -/
def translateDropin1 (d : OldDropin) : Dropin31 :=
  { name := d.name, contents := strP d.contents }

/-- The source's `translateUnits` on one unit: `Enabled` (tri-state) wins over
the deprecated boolean `Enable`, and an explicit `Enabled=false` is kept
present via the strict pointer helper. -/
def translateUnit1 (u : OldUnit) : Unit31 :=
  let enabled : Option Bool :=
    if (u.enabled = some true) ∨ u.enable then boolP true
    else none
  let enabled := if u.enabled = some false then boolPStrict false else enabled
  { name := u.name, enabled := enabled, mask := boolP u.mask,
    contents := strP u.contents, dropins := u.dropins.map translateDropin1 }

/-- The source's `translateUnits`. -/
def translateUnits (units : List OldUnit) : List Unit31 :=
  units.map translateUnit1

/-- The body of the source's `translateFilesystems` loop for one non-root
filesystem: substitute an empty mount for nil, derive `wipeFilesystem` (the
legacy create block's `force` supersedes), merge create options, apply the
`oem → btrfs` compat quirk when the effective wipe is absent or false, and
build the v3.1 filesystem. -/
def translateFilesystem1 (f : OldFilesystem) (m : SMap) : Filesystem31 :=
  let mnt := f.mount.getD OldMount.empty
  let wipe := match mnt.create with
    | some create => boolP create.force
    | none => boolP mnt.wipeFilesystem
  let options := match mnt.create with
    | some create => mnt.options ++ create.options
    | none => mnt.options
  let format := if f.name = "oem" ∧ (wipe = none ∨ wipe = some false)
    then "btrfs" else mnt.format
  { device := mnt.device, format := strP format, wipeFilesystem := wipe,
    label := mnt.label, uuid := mnt.uuid, options := options,
    path := strP (mapGet m f.name) }

/-- The source's `translateFilesystems`: `root` is elided, every other entry
is translated by `translateFilesystem1`. -/
def translateFilesystems (fss : List OldFilesystem) (m : SMap) : List Filesystem31 :=
  match fss with
  | [] => []
  | f :: rest =>
    if f.name = "root" then translateFilesystems rest m
    else translateFilesystem1 f m :: translateFilesystems rest m

/-- The source's `translateNode`: default ownership for nil user/group, path
rewriting through the filesystem map, overwrite passed through. -/
def translateNode (n : OldNode) (m : SMap) : Node31 :=
  let user := n.user.getD OldNodeUser.empty
  let group := n.group.getD OldNodeGroup.empty
  { path := pathJoin [mapGet m n.filesystem, n.path],
    user := { id := user.id, name := strP user.name },
    group := { id := group.id, name := strP group.name },
    overwrite := n.overwrite }

/-- The translated contents resource of a legacy file (the `c` built by
`translateFiles`). -/
def fileContentsResource (f : OldFile) : Resource31 :=
  { compression := strP f.contents.compression,
    source := strPStrict f.contents.source,
    verification := f.contents.verification,
    httpHeaders := f.contents.httpHeaders.map
      (fun h => { name := h.1, value := strP h.2 }) }

/-- The body of the source's `translateFiles` loop for one file: default the
absent overwrite to an explicit `true`, force overwrite to a strict `false`
for an append entry, and place the contents in `Append` or `Contents`
accordingly. -/
def translateFile1 (m : SMap) (f : OldFile) : File31 :=
  let overwrite := if f.node.overwrite = none then boolP true else f.node.overwrite
  let overwrite := if f.append then boolPStrict false else overwrite
  let node := translateNode { f.node with overwrite := overwrite } m
  let c := fileContentsResource f
  if f.append then
    { node := node, mode := f.mode, contents := Resource31.empty, append := [c] }
  else
    { node := node, mode := f.mode, contents := c, append := [] }

/-- The source's `translateFiles`. -/
def translateFiles (m : SMap) (files : List OldFile) : List File31 :=
  files.map (translateFile1 m)

end Conv

/-! ## Config parsing: `config/v3_4_experimental/config.go` -/

namespace V34

/-- Report entry levels (§9: the report is a tree of (path, level, message)). -/
inductive Level
  | info
  | warning
  | deprecation
  | fatal
deriving DecidableEq

/-- One entry of a parse/validate report. -/
structure ReportEntry where
  path : List String
  level : Level
  message : String
deriving DecidableEq

/-- A report is its list of entries; `report.Report{}` is `[]`. -/
abbrev Report := List ReportEntry

/-- Fatal-ness of a report: some entry is fatal. -/
def reportIsFatal (r : Report) : Bool :=
  r.any (fun e => if e.level = Level.fatal then true else false)

/-- Semantic version value as compared by the source (`*version !=
types.MaxVersion` compares major, minor, patch and prerelease). -/
structure Semver where
  major : Nat
  minor : Nat
  patch : Nat
  pre : String
deriving DecidableEq

/-- Digits-only numeral reading for version components. -/
def digitsToNat (cs : List Char) : Option Nat :=
  if cs ≠ [] ∧ cs.all Char.isDigit then
    some (cs.foldl (fun n c => n * 10 + (c.toNat - 48)) 0)
  else none

/-- Modelled from the spec: `semver.NewVersion` (the go-semver library is not
among the sources). A version string is `major.minor.patch` with numeric
components and an optional `-prerelease` tag (e.g. `3.4.0-experimental`, per
the source comment on `ParseCompatibleVersion`); anything else — in
particular the empty string left by a missing version field — fails. -/
def semverNewVersion (s : String) : Option Semver :=
  match splitOnCharAux '-' s.data [] with
  | [] => none
  | core :: preParts =>
    let pre := String.mk (List.intercalate ['-'] preParts)
    match splitOnCharAux '.' core [] with
    | [a, b, c] =>
      match digitsToNat a, digitsToNat b, digitsToNat c with
      | some x, some y, some z => some { major := x, minor := y, patch := z, pre := pre }
      | _, _, _ => none
    | _ => none

/-- `types.MaxVersion` of the `v3_4_experimental` schema: `3.4.0-experimental`
(the version named by the source comment on `ParseCompatibleVersion`). -/
def maxVersion : Semver :=
  { major := 3, minor := 4, patch := 0, pre := "experimental" }

/-- The ignition section of the experimental config as read by `Parse`. -/
structure Ignition34 where
  version : String
deriving DecidableEq

/-- The experimental config as read by `Parse` (the remaining regions do not
influence the claims settled here). -/
structure Config34 where
  ignition : Ignition34
deriving DecidableEq

/-- Go zero value `types.Config{}` returned on every error path. -/
def Config34.empty : Config34 :=
  { ignition := { version := "" } }

/-- The distinguished errors `Parse` returns (`ErrEmpty`, the JSON decode
error wrapped by `HandleParseErrors`, `ErrUnknownVersion`, `ErrInvalid`). -/
inductive ParseFailure
  | errEmpty
  | decodeFailed (e : String)
  | errUnknownVersion
  | errInvalid
deriving DecidableEq

/-- The source's `Parse`: empty-input check, JSON decoding (the external
`util.HandleParseErrors` supplied as `handle`), the version gate against
`types.MaxVersion`, then structural validation (the external
`validate.ValidateWithContext` supplied as `validateCtx`). Every failure
returns the zero config, and only decode and validation failures carry a
non-empty report. -/
def Parse (handle : List UInt8 → Except (Report × String) Config34)
    (validateCtx : Config34 → Report) (raw : List UInt8) :
    Config34 × Report × Option ParseFailure :=
  if raw.length = 0 then (Config34.empty, [], some .errEmpty)
  else
    match handle raw with
    | .error (rpt, e) => (Config34.empty, rpt, some (.decodeFailed e))
    | .ok config =>
      match semverNewVersion config.ignition.version with
      | none => (Config34.empty, [], some .errUnknownVersion)
      | some version =>
        if version ≠ maxVersion then (Config34.empty, [], some .errUnknownVersion)
        else
          let rpt := validateCtx config
          if reportIsFatal rpt then (Config34.empty, rpt, some .errInvalid)
          else (config, rpt, none)

end V34

/-! ## Concrete scenario inputs (spec §8) -/

namespace Conv

/-- Empty legacy file contents (Go zero value). -/
def emptyContents : OldContents :=
  { compression := "", source := "", verification := none, httpHeaders := [] }

/-- A root-filesystem node at `p` with no ownership or overwrite. -/
def mkNode (p : String) : OldNode :=
  { filesystem := "root", path := p, user := none, group := none, overwrite := none }

/-- A plain legacy file entry at `p` on the root filesystem. -/
def mkFile (p : String) : OldFile :=
  { node := mkNode p, mode := none, contents := emptyContents, append := false }

/-- A plain legacy directory entry at `p` on the root filesystem. -/
def mkDir (p : String) : OldDirectory :=
  { node := mkNode p, mode := none }

/-- A legacy symlink entry at `p` targeting `t`. -/
def mkLink (p t : String) : OldLink :=
  { node := mkNode p, hard := false, target := t }

/-- A legacy storage section with the given files, directories and links. -/
def mkStorage (files : List OldFile) (dirs : List OldDirectory)
    (links : List OldLink) : OldStorage :=
  { filesystems := [], files := files, directories := dirs, links := links }

/-- A legacy config with the given storage section and nothing else. -/
def mkConfig (st : OldStorage) : OldConfig :=
  { storage := st, systemd := { units := [] }, networkd := { units := [] } }

/-- Scenario S2: file `/a` and directory `/a`, both on `root`. -/
def s2Config : OldConfig := mkConfig (mkStorage [mkFile "/a"] [mkDir "/a"] [])

/-- Scenario S3: link `/l` and file `/l/x`, both on `root`. -/
def s3Config : OldConfig := mkConfig (mkStorage [mkFile "/l/x"] [] [mkLink "/l" "/t"])

/-- A translatable config with file `/a` and link `/lnk`. -/
def wConfig : OldConfig := mkConfig (mkStorage [mkFile "/a"] [] [mkLink "/lnk" "/t"])

/-- Scenario S4: a unit with `Enable=true` and `Enabled=false`. -/
def s4Unit : OldUnit :=
  { name := "u.service", enable := true, enabled := some false, mask := false,
    contents := "", dropins := [] }

/-- A unit with `Enabled` absent and `Enable=true`. -/
def s4bUnit : OldUnit :=
  { name := "v.service", enable := true, enabled := none, mask := false,
    contents := "", dropins := [] }

/-- The mount block of `oemFs` below. -/
def oemMount : OldMount :=
  { device := "/dev/disk/by-label/OEM", format := "ext4",
    wipeFilesystem := false, label := none, uuid := none, options := [],
    create := none }

/-- A legacy `oem` filesystem declared as `ext4` with no wipe and no create
block. -/
def oemFs : OldFilesystem :=
  { name := "oem", mount := some oemMount }

/-- A legacy append file at `/f`. -/
def appendFile : OldFile :=
  { node := mkNode "/f", mode := none, contents := emptyContents, append := true }

end Conv

namespace DisksStage

/-- Scenario S5 config entry: ext4 on `/dev/sdb1` with label `DATA`, uuid `u`,
and no wipe. -/
def s5fs : Mount :=
  { device := "/dev/sdb1", format := "ext4", label := some "DATA",
    uuid := some "u", wipeFilesystem := false, create := none, options := [],
    cleanExcept := [] }

/-- Scenario S5 probe result: the device already carries that filesystem. -/
def s5Info : FsInfo := { format := "ext4", uuid := "u", label := "DATA" }

/-- A mount entry for a device formatted without error. -/
def okMount : Mount :=
  { device := "/dev/ok", format := "ext4", label := none, uuid := none,
    wipeFilesystem := true, create := none, options := [], cleanExcept := [] }

/-- A mount entry for the device whose mkfs fails in scenario S6. -/
def badMount : Mount :=
  { device := "/dev/bad", format := "ext4", label := none, uuid := none,
    wipeFilesystem := true, create := none, options := [], cleanExcept := [] }

/-- The storage section of `s6Config` below. -/
def s6Storage : Storage :=
  { disks := [], raid := [],
    filesystems := [{ mount := some okMount }, { mount := some badMount }] }

/-- Scenario S6-style config: two filesystems, one of which will fail. -/
def s6Config : Config :=
  { storage := s6Storage }

/-- Fast-path config: no disks, no raid, exactly the implicit root filesystem. -/
def fastPathConfig : Config :=
  { storage := { disks := [], raid := [], filesystems := [{ mount := none }] } }

end DisksStage

/-! ## Claim theorems -/

/-- C9: `canonicalize_uuid` lowercases its input for every format, and for
`vfat` additionally strips a dash at index 4 when present; in particular
`vfat`/`"A1B2-C3D4"` gives `"a1b2c3d4"` while `ext4` keeps `"a1b2-c3d4"`. -/
theorem canonicalizeFilesystemUUID_lowercases_and_strips_vfat_dash :
    DisksStage.canonicalizeFilesystemUUID "vfat" "A1B2-C3D4" = "a1b2c3d4"
    ∧ DisksStage.canonicalizeFilesystemUUID "ext4" "A1B2-C3D4" = "a1b2-c3d4"
    ∧ (∀ format uuid, format ≠ "vfat" →
        DisksStage.canonicalizeFilesystemUUID format uuid = strToLower uuid)
    ∧ (∀ uuid, (strToLower uuid).length ≥ 5 →
        (strToLower uuid).data[4]? = some '-' →
        DisksStage.canonicalizeFilesystemUUID "vfat" uuid
          = String.mk ((strToLower uuid).data.take 4 ++ (strToLower uuid).data.drop 5))
    ∧ (∀ uuid, (strToLower uuid).data[4]? ≠ some '-' →
        DisksStage.canonicalizeFilesystemUUID "vfat" uuid = strToLower uuid) := by
  refine ⟨by decide, by decide, ?_, ?_, ?_⟩
  · intro format uuid h
    simp [DisksStage.canonicalizeFilesystemUUID, h]
  · intro uuid h1 h2
    simp [DisksStage.canonicalizeFilesystemUUID, h1, h2]
  · intro uuid h
    simp [DisksStage.canonicalizeFilesystemUUID, h]

/-- Witness for C9 at concrete non-vfat and dashless-vfat inputs. -/
theorem canonicalizeFilesystemUUID_lowercases_witness :
    DisksStage.canonicalizeFilesystemUUID "ext4" "ABC" = strToLower "ABC"
    ∧ DisksStage.canonicalizeFilesystemUUID "vfat" "AB" = strToLower "AB" :=
  ⟨canonicalizeFilesystemUUID_lowercases_and_strips_vfat_dash.2.2.1 "ext4" "ABC"
      (by decide),
   canonicalizeFilesystemUUID_lowercases_and_strips_vfat_dash.2.2.2.2 "AB"
      (by decide)⟩

/-- C4: in unit translation the tri-state `Enabled` wins over the deprecated
boolean `Enable`: an explicit `Enabled=false` yields an explicitly-false
`enabled` even when `Enable=true`, an absent `Enabled` with `Enable=true`
yields `enabled=true`, and present-false stays distinct from absent. -/
theorem translateUnits_enabled_wins_over_enable :
    (∀ u : Conv.OldUnit, u.enabled = some false →
        (Conv.translateUnit1 u).enabled = some false)
    ∧ (∀ u : Conv.OldUnit, u.enabled = none → u.enable = true →
        (Conv.translateUnit1 u).enabled = some true)
    ∧ (∀ u : Conv.OldUnit, u.enabled = some false →
        (Conv.translateUnit1 u).enabled ≠ none) := by
  refine ⟨?_, ?_, ?_⟩
  · intro u h
    simp [Conv.translateUnit1, h, Conv.boolPStrict]
  · intro u h he
    simp [Conv.translateUnit1, h, he, Conv.boolP]
  · intro u h
    simp [Conv.translateUnit1, h, Conv.boolPStrict]

/-- Witness for C4: scenario S4 (`Enable=true`, `Enabled=false`) translates to
an explicitly disabled unit, and `Enabled` absent with `Enable=true` to an
enabled one. -/
theorem translateUnits_enabled_wins_witness :
    (Conv.translateUnit1 Conv.s4Unit).enabled = some false
    ∧ (Conv.translateUnit1 Conv.s4bUnit).enabled = some true :=
  ⟨translateUnits_enabled_wins_over_enable.1 Conv.s4Unit rfl,
   translateUnits_enabled_wins_over_enable.2.1 Conv.s4bUnit rfl rfl⟩

/-- C5: a legacy filesystem named `oem` whose effective wipe (the create
block's `force` when present, else `wipeFilesystem`) is false is translated
with format `btrfs` regardless of its declared format, and filesystems named
`root` are elided from the translated list. -/
theorem translateFilesystems_oem_btrfs_and_root_elided :
    (∀ (f : Conv.OldFilesystem) (m : SMap), f.name = "oem" →
        (match (f.mount.getD Conv.OldMount.empty).create with
          | some create => create.force
          | none => (f.mount.getD Conv.OldMount.empty).wipeFilesystem) = false →
        (Conv.translateFilesystem1 f m).format = some "btrfs")
    ∧ (∀ (fss : List Conv.OldFilesystem) (m : SMap),
        Conv.translateFilesystems fss m
          = Conv.translateFilesystems (fss.filter (fun f => f.name ≠ "root")) m) := by
  constructor
  · intro f m hname hw
    cases hc : (f.mount.getD Conv.OldMount.empty).create with
    | some create =>
      rw [hc] at hw
      simp only [] at hw
      simp [Conv.translateFilesystem1, hname, hc, hw, Conv.boolP, Conv.strP]
    | none =>
      rw [hc] at hw
      simp only [] at hw
      simp [Conv.translateFilesystem1, hname, hc, hw, Conv.boolP, Conv.strP]
  · intro fss m
    induction fss with
    | nil => rfl
    | cons f rest ih =>
      by_cases h : f.name = "root"
      · simp [Conv.translateFilesystems, h, ih]
      · simp [Conv.translateFilesystems, h, ih]

/-- Witness for C5: the concrete `oem` filesystem declared `ext4` without wipe
comes out as `btrfs`. -/
theorem translateFilesystems_oem_btrfs_witness :
    (Conv.translateFilesystem1 Conv.oemFs []).format = some "btrfs" :=
  translateFilesystems_oem_btrfs_and_root_elided.1 Conv.oemFs [] rfl (by decide)

/-- C10: file translation forces `overwrite`: an absent overwrite with
`append=false` becomes an explicit `true`; `append=true` forces an explicit
`false` and moves the contents into `append[]`; consequently no translated
file has a non-empty `append` together with `overwrite=true`. -/
theorem translateFiles_forces_overwrite :
    (∀ (m : SMap) (f : Conv.OldFile), f.node.overwrite = none → f.append = false →
        (Conv.translateFile1 m f).node.overwrite = some true)
    ∧ (∀ (m : SMap) (f : Conv.OldFile), f.append = true →
        (Conv.translateFile1 m f).node.overwrite = some false
          ∧ (Conv.translateFile1 m f).append = [Conv.fileContentsResource f])
    ∧ (∀ (m : SMap) (files : List Conv.OldFile) (g : Conv.File31),
        g ∈ Conv.translateFiles m files →
        ¬(g.append ≠ [] ∧ g.node.overwrite = some true)) := by
  refine ⟨?_, ?_, ?_⟩
  · intro m f h1 h2
    simp [Conv.translateFile1, Conv.translateNode, h1, h2, Conv.boolP]
  · intro m f h
    simp [Conv.translateFile1, Conv.translateNode, h, Conv.boolPStrict]
  · intro m files g hg hcontra
    obtain ⟨f, hf, rfl⟩ := List.mem_map.mp hg
    by_cases ha : f.append
    · have := hcontra.2
      simp [Conv.translateFile1, Conv.translateNode, ha, Conv.boolPStrict] at this
    · have := hcontra.1
      simp [Conv.translateFile1, ha] at this

/-- Witness for C10 at a plain file and at an append file. -/
theorem translateFiles_forces_overwrite_witness :
    (Conv.translateFile1 [] (Conv.mkFile "/w")).node.overwrite = some true
    ∧ (Conv.translateFile1 [] Conv.appendFile).node.overwrite = some false :=
  ⟨translateFiles_forces_overwrite.1 [] (Conv.mkFile "/w") rfl rfl,
   (translateFiles_forces_overwrite.2.1 [] Conv.appendFile rfl).1⟩

/-- C8: with no disks, no raid arrays, and exactly one filesystem entry (the
implicit root), the disks stage returns success immediately: whatever the
partition/raid/filesystem sub-steps would do, the emitted action trace is
empty and no error is produced. -/
theorem stageRun_fast_path_is_noop {α : Type}
    (parts raids fss : DisksStage.Config → List α × Option String)
    (config : DisksStage.Config)
    (hd : config.storage.disks = []) (hr : config.storage.raid = [])
    (hf : config.storage.filesystems.length = 1) :
    DisksStage.stageRun parts raids fss config = ([], none) := by
  simp [DisksStage.stageRun, hd, hr, hf]

/-- Witness for C8: the fast-path config short-circuits even sub-steps that
would emit actions and fail. -/
theorem stageRun_fast_path_witness :
    DisksStage.stageRun (fun _ => (["sgdisk"], some "boom"))
      (fun _ => (["mdadm"], some "boom")) (fun _ => (["mkfs"], some "boom"))
      DisksStage.fastPathConfig = ([], none) :=
  stageRun_fast_path_is_noop _ _ _ DisksStage.fastPathConfig rfl rfl rfl

/-- C6: `Parse` returns `ErrEmpty` on empty input, and when the decoded
config's version field is missing (the zero value `""`), unparsable, or not
equal to the schema's max version, it returns `ErrUnknownVersion` with the
zero config and an empty report. -/
theorem parse_empty_and_version_gate :
    (∀ (handle : List UInt8 → Except (V34.Report × String) V34.Config34)
        (validateCtx : V34.Config34 → V34.Report),
        V34.Parse handle validateCtx []
          = (V34.Config34.empty, [], some V34.ParseFailure.errEmpty))
    ∧ (∀ (handle : List UInt8 → Except (V34.Report × String) V34.Config34)
        (validateCtx : V34.Config34 → V34.Report)
        (raw : List UInt8) (cfg : V34.Config34), raw ≠ [] →
        handle raw = .ok cfg →
        (V34.semverNewVersion cfg.ignition.version = none
          ∨ ∃ v, V34.semverNewVersion cfg.ignition.version = some v
              ∧ v ≠ V34.maxVersion) →
        V34.Parse handle validateCtx raw
          = (V34.Config34.empty, [], some V34.ParseFailure.errUnknownVersion))
    ∧ V34.semverNewVersion "" = none := by
  refine ⟨?_, ?_, by decide⟩
  · intro handle validateCtx
    simp [V34.Parse]
  · intro handle validateCtx raw cfg hraw hok hv
    have hlen : raw.length ≠ 0 := by
      simpa using fun h => hraw (List.length_eq_zero.mp h)
    rcases hv with hnone | ⟨v, hsome, hne⟩
    · simp [V34.Parse, hlen, hok, hnone]
    · simp [V34.Parse, hlen, hok, hsome, hne]

/-- Witness for C6: a well-formed input carrying version `2.0.0` is rejected
with `ErrUnknownVersion` and no partial result. -/
theorem parse_version_gate_witness :
    V34.Parse (fun _ => .ok { ignition := { version := "2.0.0" } })
      (fun _ => []) [0]
      = (V34.Config34.empty, [], some V34.ParseFailure.errUnknownVersion) :=
  parse_empty_and_version_gate.2.1 _ _ [0] { ignition := { version := "2.0.0" } }
    (by decide) rfl
    (Or.inr ⟨{ major := 2, minor := 0, patch := 0, pre := "" }, by decide, by decide⟩)

/-- The mkfs construction never yields a skip outcome: it either runs a
command or rejects the format. -/
theorem mkfsPlan_not_skip (fs : DisksStage.Mount) :
    DisksStage.mkfsPlan fs ≠ DisksStage.FsPlan.noop
    ∧ DisksStage.mkfsPlan fs ≠ DisksStage.FsPlan.cleanExceptRun := by
  unfold DisksStage.mkfsPlan
  constructor <;> (split <;> (split <;> simp))

/-- C1: for a filesystem entry with `wipeFilesystem=false` and no legacy
create block, `createFilesystem` skips mkfs exactly when the probed format
matches the desired one (or the probed label is `"OEM"`), the desired label
is absent or equal to the probed label, and the desired UUID is absent or
canonicalizes equal to the probed one; otherwise a non-empty probed format is
rejected with `ErrBadFilesystem`. -/
theorem createFilesystem_skip_iff (fs : DisksStage.Mount) (info : DisksStage.FsInfo)
    (hc : fs.create = none) (hw : fs.wipeFilesystem = false) :
    ((DisksStage.createFilesystemPlan fs info = DisksStage.FsPlan.noop
        ∨ DisksStage.createFilesystemPlan fs info = DisksStage.FsPlan.cleanExceptRun)
      ↔ ((info.format = fs.format ∨ info.label = "OEM")
          ∧ (∀ l, fs.label = some l → info.label = l)
          ∧ (∀ u, fs.uuid = some u →
              DisksStage.canonicalizeFilesystemUUID info.format info.uuid
                = DisksStage.canonicalizeFilesystemUUID fs.format u)))
    ∧ (¬(DisksStage.createFilesystemPlan fs info = DisksStage.FsPlan.noop
          ∨ DisksStage.createFilesystemPlan fs info = DisksStage.FsPlan.cleanExceptRun) →
        info.format ≠ "" →
        DisksStage.createFilesystemPlan fs info = DisksStage.FsPlan.badFilesystem) := by
  have hcond : ((info.format = fs.format ∨ info.label = "OEM")
      ∧ (fs.label = none ∨ fs.label = some info.label)
      ∧ (fs.uuid = none ∨ DisksStage.canonicalizeFilesystemUUID info.format info.uuid
          = DisksStage.canonicalizeFilesystemUUID fs.format (fs.uuid.getD "")))
      ↔ ((info.format = fs.format ∨ info.label = "OEM")
          ∧ (∀ l, fs.label = some l → info.label = l)
          ∧ (∀ u, fs.uuid = some u →
              DisksStage.canonicalizeFilesystemUUID info.format info.uuid
                = DisksStage.canonicalizeFilesystemUUID fs.format u)) := by
    constructor
    · rintro ⟨h1, h2, h3⟩
      refine ⟨h1, ?_, ?_⟩
      · intro l hl
        rcases h2 with h2 | h2
        · rw [hl] at h2; cases h2
        · rw [hl] at h2
          exact (Option.some.inj h2).symm
      · intro u hu
        rcases h3 with h3 | h3
        · rw [hu] at h3; cases h3
        · rw [hu] at h3
          simpa using h3
    · rintro ⟨h1, h2, h3⟩
      refine ⟨h1, ?_, ?_⟩
      · cases hl : fs.label with
        | none => exact Or.inl rfl
        | some l => exact Or.inr (by rw [h2 l hl])
      · cases hu : fs.uuid with
        | none => exact Or.inl rfl
        | some u => exact Or.inr (by simpa using h3 u hu)
  by_cases hm : (info.format = fs.format ∨ info.label = "OEM")
      ∧ (fs.label = none ∨ fs.label = some info.label)
      ∧ (fs.uuid = none ∨ DisksStage.canonicalizeFilesystemUUID info.format info.uuid
          = DisksStage.canonicalizeFilesystemUUID fs.format (fs.uuid.getD ""))
  · have hplan : DisksStage.createFilesystemPlan fs info
        = (if fs.cleanExcept.length > 0 then DisksStage.FsPlan.cleanExceptRun
            else DisksStage.FsPlan.noop) := by
      simp [DisksStage.createFilesystemPlan, hc, hw, hm]
    have hskip : DisksStage.createFilesystemPlan fs info = DisksStage.FsPlan.noop
        ∨ DisksStage.createFilesystemPlan fs info = DisksStage.FsPlan.cleanExceptRun := by
      rw [hplan]
      by_cases hce : fs.cleanExcept.length > 0
      · exact Or.inr (by simp [hce])
      · exact Or.inl (by simp [hce])
    constructor
    · exact ⟨fun _ => hcond.mp hm, fun _ => hskip⟩
    · intro hns _
      exact absurd hskip hns
  · have hplan : DisksStage.createFilesystemPlan fs info
        = (if info.format ≠ "" then DisksStage.FsPlan.badFilesystem
            else DisksStage.mkfsPlan fs) := by
      simp [DisksStage.createFilesystemPlan, hc, hw, hm]
    constructor
    · constructor
      · intro h
        exfalso
        rw [hplan] at h
        by_cases hfmt : info.format ≠ ""
        · rcases h with h | h <;> simp [hfmt] at h
        · rw [if_neg hfmt] at h
          rcases h with h | h
          · exact (mkfsPlan_not_skip fs).1 h
          · exact (mkfsPlan_not_skip fs).2 h
      · intro h
        exact absurd (hcond.mpr h) hm
    · intro _ hfmt
      rw [hplan]
      simp [hfmt]

/-- Witness for C1: scenario S5 — a device already formatted with the desired
format, label and UUID is skipped. -/
theorem createFilesystem_skip_iff_witness :
    (DisksStage.createFilesystemPlan DisksStage.s5fs DisksStage.s5Info
        = DisksStage.FsPlan.noop
      ∨ DisksStage.createFilesystemPlan DisksStage.s5fs DisksStage.s5Info
        = DisksStage.FsPlan.cleanExceptRun) :=
  (createFilesystem_skip_iff DisksStage.s5fs DisksStage.s5Info rfl rfl).1.mpr
    (by
      refine ⟨Or.inl rfl, ?_, ?_⟩
      · intro l hl
        simp [DisksStage.s5fs] at hl
        rw [← hl]
        rfl
      · intro u hu
        simp [DisksStage.s5fs] at hu
        rw [← hu]
        decide)

/-- C7: with the device wait succeeding, `createFilesystems` succeeds iff
every entry's `createFilesystem` succeeds; on failure the message is the
per-entry error messages joined by newlines — exactly the failing entries'
messages (as a permutation, since collection order is scheduler-dependent)
and nothing for the entries that succeeded. -/
theorem createFilesystems_success_iff_joined_errors
    (config : DisksStage.Config) (runFs : DisksStage.Mount → Option String)
    (arrival : List (Option String))
    (hperm : arrival.Perm ((DisksStage.fsEntries config).map runFs)) :
    (DisksStage.createFilesystemsResult none arrival config = none
      ↔ ∀ fs ∈ DisksStage.fsEntries config, runFs fs = none)
    ∧ (∀ msg, DisksStage.createFilesystemsResult none arrival config = some msg →
        ∃ errs, msg = joinWithNewline errs ∧ errs ≠ []
          ∧ errs.Perm (((DisksStage.fsEntries config).map runFs).filterMap id)) := by
  by_cases hempty : DisksStage.fsEntries config = []
  · constructor
    · simp [DisksStage.createFilesystemsResult, hempty]
    · intro msg hmsg
      simp [DisksStage.createFilesystemsResult, hempty] at hmsg
  · have hres : DisksStage.createFilesystemsResult none arrival config
        = (if arrival.filterMap id = [] then none
            else some (joinWithNewline (arrival.filterMap id))) := by
      simp [DisksStage.createFilesystemsResult, hempty]
    constructor
    · rw [hres]
      constructor
      · intro h
        by_cases hn : arrival.filterMap id = []
        · intro fs hfs
          have hmem : runFs fs ∈ arrival :=
            hperm.mem_iff.mpr (List.mem_map_of_mem runFs hfs)
          simpa using (List.filterMap_eq_nil_iff.mp hn) (runFs fs) hmem
        · simp [hn] at h
      · intro h
        have hn : arrival.filterMap id = [] := by
          apply List.filterMap_eq_nil_iff.mpr
          intro a ha
          obtain ⟨fs, hfs, rfl⟩ := List.mem_map.mp (hperm.mem_iff.mp ha)
          simpa using h fs hfs
        simp [hn]
    · intro msg hmsg
      rw [hres] at hmsg
      by_cases hn : arrival.filterMap id = []
      · simp [hn] at hmsg
      · refine ⟨arrival.filterMap id, ?_, hn, hperm.filterMap id⟩
        simp [hn] at hmsg
        exact hmsg.symm

/-- Witness for C7: two filesystems of which the second one fails; the
collector receives the results out of order and the stage reports exactly the
failing entry's message. -/
theorem createFilesystems_success_iff_witness :
    ∃ errs, "boom" = joinWithNewline errs ∧ errs ≠ []
      ∧ errs.Perm (((DisksStage.fsEntries DisksStage.s6Config).map
          (fun m => if m.device = "/dev/bad" then some "boom" else none)).filterMap id) :=
  (createFilesystems_success_iff_joined_errors DisksStage.s6Config
      (fun m => if m.device = "/dev/bad" then some "boom" else none)
      [some "boom", none] (by decide)).2 "boom" (by decide)

/-- Lookup after overwrite-insertion. -/
theorem mapFind_mapInsert (em : SMap) (k v q : String) :
    mapFind (mapInsert em k v) q = if q = k then some v else mapFind em q := by
  by_cases h : q = k
  · subst h
    simp [mapInsert, mapFind]
  · have hk : ¬(k = q) := fun hh => h hh.symm
    simp [mapInsert, mapFind, hk, h]

/-- If `CheckPathUsesLink` reports nothing, no supplied link is a proper path
ancestor of the entry. -/
theorem checkPathUsesLink_eq_empty {links : List String} {p : String}
    (h : Conv.CheckPathUsesLink links p = "") :
    ∀ l ∈ links, Conv.isPathAncestor l p = false := by
  induction links with
  | nil => simp
  | cons a t ih =>
    intro l hl
    unfold Conv.CheckPathUsesLink at h
    by_cases ha : Conv.isPathAncestor a p = true
    · rw [if_pos ha] at h
      subst h
      simp [Conv.isPathAncestor] at ha
    · rw [if_neg ha] at h
      rcases List.mem_cons.mp hl with rfl | hl'
      · exact Bool.eq_false_iff.mpr (fun hh => ha hh)
      · exact ih h l hl'

/-- What a successful file/directory loop guarantees: every processed path
was fresh and clear of the written links, the processed paths are mutually
distinct, and the resulting entry map is the input plus the processed
paths. -/
theorem checkEntriesLoop_ok_spec (links : List String) (kind : String) :
    ∀ (ps : List String) (em em' : SMap),
      Conv.checkEntriesLoop links kind em ps = Except.ok em' →
      ((∀ p ∈ ps, mapFind em p = none ∧ Conv.CheckPathUsesLink links p = "")
        ∧ ps.Nodup
        ∧ (∀ q, mapFind em' q = none ↔ (mapFind em q = none ∧ q ∉ ps))) := by
  intro ps
  induction ps with
  | nil =>
    intro em em' h
    unfold Conv.checkEntriesLoop at h
    injection h with h
    subst h
    simp
  | cons p rest ih =>
    intro em em' h
    unfold Conv.checkEntriesLoop at h
    cases hf : mapFind em p with
    | some d =>
      simp only [hf] at h
      exact Except.noConfusion h
    | none =>
      simp only [hf] at h
      by_cases hl : Conv.CheckPathUsesLink links p ≠ ""
      · rw [if_pos hl] at h
        simp at h
      · rw [if_neg hl] at h
        push_neg at hl
        obtain ⟨h1, h2, h3⟩ := ih (mapInsert em p (kind ++ p)) em' h
        refine ⟨?_, ?_, ?_⟩
        · intro q hq
          rcases List.mem_cons.mp hq with rfl | hq'
          · exact ⟨hf, hl⟩
          · obtain ⟨hq1, hq2⟩ := h1 q hq'
            rw [mapFind_mapInsert] at hq1
            by_cases hqp : q = p
            · rw [if_pos hqp] at hq1; cases hq1
            · rw [if_neg hqp] at hq1; exact ⟨hq1, hq2⟩
        · refine List.nodup_cons.mpr ⟨?_, h2⟩
          intro hmem
          obtain ⟨hq1, _⟩ := h1 p hmem
          rw [mapFind_mapInsert] at hq1
          simp at hq1
        · intro q
          rw [h3 q, mapFind_mapInsert]
          by_cases hqp : q = p
          · subst hqp
            simp
          · simp [hqp]

/-- The link-loop analogue of `checkEntriesLoop_ok_spec` (the source records
the link before checking it against the written links; success guarantees the
same facts). -/
theorem checkLinksLoop_ok_spec (links : List String) :
    ∀ (ps : List String) (em em' : SMap),
      Conv.checkLinksLoop links em ps = Except.ok em' →
      ((∀ p ∈ ps, mapFind em p = none ∧ Conv.CheckPathUsesLink links p = "")
        ∧ ps.Nodup
        ∧ (∀ q, mapFind em' q = none ↔ (mapFind em q = none ∧ q ∉ ps))) := by
  intro ps
  induction ps with
  | nil =>
    intro em em' h
    unfold Conv.checkLinksLoop at h
    injection h with h
    subst h
    simp
  | cons p rest ih =>
    intro em em' h
    unfold Conv.checkLinksLoop at h
    cases hf : mapFind em p with
    | some d =>
      simp only [hf] at h
      exact Except.noConfusion h
    | none =>
      simp only [hf] at h
      by_cases hl : Conv.CheckPathUsesLink links p ≠ ""
      · rw [if_pos hl] at h
        simp at h
      · rw [if_neg hl] at h
        push_neg at hl
        obtain ⟨h1, h2, h3⟩ := ih (mapInsert em p ("Link: " ++ p)) em' h
        refine ⟨?_, ?_, ?_⟩
        · intro q hq
          rcases List.mem_cons.mp hq with rfl | hq'
          · exact ⟨hf, hl⟩
          · obtain ⟨hq1, hq2⟩ := h1 q hq'
            rw [mapFind_mapInsert] at hq1
            by_cases hqp : q = p
            · rw [if_pos hqp] at hq1; cases hq1
            · rw [if_neg hqp] at hq1; exact ⟨hq1, hq2⟩
        · refine List.nodup_cons.mpr ⟨?_, h2⟩
          intro hmem
          obtain ⟨hq1, _⟩ := h1 p hmem
          rw [mapFind_mapInsert] at hq1
          simp at hq1
        · intro q
          rw [h3 q, mapFind_mapInsert]
          by_cases hqp : q = p
          · subst hqp
            simp
          · simp [hqp]

/-- A translatable config (no `Check2_4` error) has run all three inode loops
to successful completion. -/
theorem check2_4_none_entry_loops (badReport : Conv.OldConfig → Bool)
    (cfg : Conv.OldConfig) (fsMap : SMap)
    (h : Conv.Check2_4 badReport cfg fsMap = none) :
    ∃ em1 em2 em3,
      Conv.checkEntriesLoop
          (Conv.linkPathList (mapInsert fsMap "root" "/") cfg.storage.links)
          "File: " []
          (Conv.filePathList (mapInsert fsMap "root" "/") cfg.storage.files)
        = Except.ok em1
      ∧ Conv.checkEntriesLoop
          (Conv.linkPathList (mapInsert fsMap "root" "/") cfg.storage.links)
          "Directory: " em1
          (Conv.dirPathList (mapInsert fsMap "root" "/") cfg.storage.directories)
        = Except.ok em2
      ∧ Conv.checkLinksLoop
          (Conv.linkPathList (mapInsert fsMap "root" "/") cfg.storage.links)
          em2
          (Conv.linkPathList (mapInsert fsMap "root" "/") cfg.storage.links)
        = Except.ok em3 := by
  unfold Conv.Check2_4 at h
  by_cases hbr : badReport cfg = true
  · rw [if_pos hbr] at h
    simp at h
  · rw [if_neg hbr] at h
    by_cases hnw : cfg.networkd.units ≠ []
    · rw [if_pos hnw] at h
      simp at h
    · rw [if_neg hnw] at h
      cases hfs : Conv.checkFilesystemsLoop (mapInsert fsMap "root" "/")
          cfg.storage.filesystems with
      | some e =>
        simp only [hfs] at h
        exact Option.noConfusion h
      | none =>
        simp only [hfs] at h
        cases hce : Conv.check2_4Entries (mapInsert fsMap "root" "/") cfg with
        | error e =>
          simp only [hce] at h
          exact Option.noConfusion h
        | ok em3 =>
          unfold Conv.check2_4Entries at hce
          cases h1 : Conv.checkEntriesLoop
              (Conv.linkPathList (mapInsert fsMap "root" "/") cfg.storage.links)
              "File: " []
              (Conv.filePathList (mapInsert fsMap "root" "/") cfg.storage.files) with
          | error e =>
            simp only [h1] at hce
            exact Except.noConfusion hce
          | ok em1 =>
            simp only [h1] at hce
            cases h2 : Conv.checkEntriesLoop
                (Conv.linkPathList (mapInsert fsMap "root" "/") cfg.storage.links)
                "Directory: " em1
                (Conv.dirPathList (mapInsert fsMap "root" "/") cfg.storage.directories) with
            | error e =>
              simp only [h2] at hce
              exact Except.noConfusion hce
            | ok em2 =>
              simp only [h2] at hce
              exact ⟨em1, em2, em3, rfl, h2, hce⟩

/-- C3: if two entries across files, directories and links rewrite to the same
absolute path, `Check2_4` fails — equivalently, a translatable config has
pairwise-distinct rewritten paths (in check order: files before directories
before links) — and scenario S2 fails with exactly
`DuplicateInode{old: "File: /a", new: "Directory: /a"}`, the earlier kind in
`old`. -/
theorem check2_4_rejects_duplicate_inodes :
    (∀ (badReport : Conv.OldConfig → Bool) (cfg : Conv.OldConfig) (fsMap : SMap),
        Conv.Check2_4 badReport cfg fsMap = none →
        (Conv.rewrittenPaths (mapInsert fsMap "root" "/") cfg).Nodup)
    ∧ Conv.Check2_4 (fun _ => false) Conv.s2Config []
        = some (Conv.CheckError.duplicateInode "File: /a" "Directory: /a") := by
  constructor
  · intro badReport cfg fsMap h
    obtain ⟨em1, em2, em3, h1, h2, h3⟩ := check2_4_none_entry_loops badReport cfg fsMap h
    obtain ⟨hfm, hnf, hcf⟩ := checkEntriesLoop_ok_spec _ _ _ _ _ h1
    obtain ⟨hdm, hnd, hcd⟩ := checkEntriesLoop_ok_spec _ _ _ _ _ h2
    obtain ⟨hlm, hnl, _⟩ := checkLinksLoop_ok_spec _ _ _ _ h3
    have hPD_not_PF : ∀ p ∈ Conv.dirPathList (mapInsert fsMap "root" "/")
        cfg.storage.directories,
        p ∉ Conv.filePathList (mapInsert fsMap "root" "/") cfg.storage.files := by
      intro p hp
      exact ((hcf p).mp (hdm p hp).1).2
    have hPL_not : ∀ p ∈ Conv.linkPathList (mapInsert fsMap "root" "/")
        cfg.storage.links,
        p ∉ Conv.filePathList (mapInsert fsMap "root" "/") cfg.storage.files
        ∧ p ∉ Conv.dirPathList (mapInsert fsMap "root" "/") cfg.storage.directories := by
      intro p hp
      have h0 := (hcd p).mp (hlm p hp).1
      exact ⟨((hcf p).mp h0.1).2, h0.2⟩
    unfold Conv.rewrittenPaths
    refine List.nodup_append.mpr ⟨List.nodup_append.mpr ⟨hnf, hnd, ?_⟩, hnl, ?_⟩
    · intro a haPF haPD
      exact hPD_not_PF a haPD haPF
    · intro a ha haPL
      rcases List.mem_append.mp ha with hf | hd
      · exact (hPL_not a haPL).1 hf
      · exact (hPL_not a haPL).2 hd
  · decide

/-- Witness for C3: the translatable config with file `/a` and link `/lnk`
indeed has pairwise-distinct rewritten paths. -/
theorem check2_4_rejects_duplicate_inodes_witness :
    (Conv.rewrittenPaths (mapInsert [] "root" "/") Conv.wConfig).Nodup :=
  check2_4_rejects_duplicate_inodes.1 (fun _ => false) Conv.wConfig [] (by decide)

/-- C2: an entry whose rewritten path sits under the path of a link written by
the same config makes `Check2_4` fail — equivalently, in a translatable
config no written link is a proper path ancestor of any entry's rewritten
path — and scenario S3 (link `/l`, file `/l/x`) fails with exactly
`UsesOwnLink{linkPath: "/l", name: "File: /l/x"}`. -/
theorem check2_4_rejects_entries_under_own_links :
    (∀ (badReport : Conv.OldConfig → Bool) (cfg : Conv.OldConfig) (fsMap : SMap),
        Conv.Check2_4 badReport cfg fsMap = none →
        ∀ p ∈ Conv.rewrittenPaths (mapInsert fsMap "root" "/") cfg,
          ∀ l ∈ Conv.linkPathList (mapInsert fsMap "root" "/") cfg.storage.links,
            Conv.isPathAncestor l p = false)
    ∧ Conv.Check2_4 (fun _ => false) Conv.s3Config []
        = some (Conv.CheckError.usesOwnLink "/l" "File: /l/x") := by
  constructor
  · intro badReport cfg fsMap h p hp
    obtain ⟨em1, em2, em3, h1, h2, h3⟩ := check2_4_none_entry_loops badReport cfg fsMap h
    obtain ⟨hfm, _, _⟩ := checkEntriesLoop_ok_spec _ _ _ _ _ h1
    obtain ⟨hdm, _, _⟩ := checkEntriesLoop_ok_spec _ _ _ _ _ h2
    obtain ⟨hlm, _, _⟩ := checkLinksLoop_ok_spec _ _ _ _ h3
    have hclear : Conv.CheckPathUsesLink
        (Conv.linkPathList (mapInsert fsMap "root" "/") cfg.storage.links) p = "" := by
      unfold Conv.rewrittenPaths at hp
      rcases List.mem_append.mp hp with hp1 | hpl
      · rcases List.mem_append.mp hp1 with hpf | hpd
        · exact (hfm p hpf).2
        · exact (hdm p hpd).2
      · exact (hlm p hpl).2
    exact checkPathUsesLink_eq_empty hclear
  · decide

/-- Witness for C2: in the translatable config with file `/a` and link
`/lnk`, the link is no ancestor of the file's path. -/
theorem check2_4_rejects_entries_under_own_links_witness :
    Conv.isPathAncestor "/lnk" "/a" = false :=
  check2_4_rejects_entries_under_own_links.1 (fun _ => false) Conv.wConfig []
    (by decide) "/a" (by decide) "/lnk" (by decide)
